import Mathlib

/-!
Verification of the Arturo Zed extension (two variants of one Rust module).

The repository has two variants of the same extension struct:
* `src/lib.rs` — the "embedding" variant: the language-server bundle is
  embedded in the binary and written to `arturo-lsp-bundle.js` in the
  current directory when no usable cached path exists.
* `src/lib-debug.rs` — the "search" variant: the bundle is looked up in a
  fixed ordered list of candidate paths.

The embedding models paths as plain `String`s (UTF-8, POSIX-style joining
with `/`), so Rust's `Path::to_str` conversion is total in the model.
Filesystem and host environment are explicit inputs:
* `FS.metadataOk p` models `fs::metadata(p).is_ok()`;
* `FS.writeErr p` models the outcome of `fs::write(p, ..)`: `none` on
  success, `some e` carrying the io error text on failure (a failed write
  is modelled as writing nothing);
* `Env.currentDir` models `std::env::current_dir()`;
* `Env.exeParent` models `std::env::current_exe().ok()` followed by
  `.parent()`, collapsed to the directory when both steps succeed.
The `eprintln!` diagnostic logging of the source is not modelled; the
existence checks recorded in `RunOut.probed` are the ones whose result the
control flow consumes.
-/

/-- Result alias mirroring `zed_extension_api::Result<T> = Result<T, String>`. -/
abbrev RustResult (α : Type) := Except String α

/-- Filesystem visible to the extension. -/
structure FS where
  metadataOk : String → Bool
  writeErr : String → Option String

/-- Process environment visible to the extension. -/
structure Env where
  currentDir : Except String String
  exeParent : Option String

/-- Outcome of one call to `language_server_script_path`: the returned
`Result`, the `cached_binary_path` field after the call, the list of paths
whose existence was checked (in order), and the successful writes performed
(path and contents, in order). -/
structure RunOut where
  res : Except String String
  cache : Option String
  probed : List String
  wrote : List (String × String)
deriving Repr

/-- Path joining, modelling `PathBuf::join` with a relative component on a
POSIX-style path without a trailing separator. -/
def pathJoin (dir child : String) : String := dir ++ "/" ++ child

/-- Modelled from the spec: the fixed in-memory payload. The source embeds
the file `bundle.js` via `include_str!("../bundle.js")`; that file is not
part of the sources, and no claim depends on its contents, only on its
being one fixed string. -/
def LANGUAGE_SERVER_BUNDLE : String := "<embedded language-server bundle>"

/-- Fallthrough of the embedding variant of `language_server_script_path`
(`src/lib.rs` lines 80-108), reached when no usable cached path exists:
obtain the current directory, write the embedded bundle to
`arturo-lsp-bundle.js` in it, cache and return that path. `probed0` carries
the existence checks already performed by the cache check. -/
def embedFresh (env : Env) (fs : FS) (cache : Option String)
    (probed0 : List String) : RunOut :=
  match env.currentDir with
  | .error e =>
      ⟨.error ("Failed to get current directory: " ++ e), cache, probed0, []⟩
  | .ok dir =>
      let bundlePath := pathJoin dir "arturo-lsp-bundle.js"
      match fs.writeErr bundlePath with
      | some e =>
          ⟨.error ("Failed to write language server bundle: " ++ e), cache,
            probed0, []⟩
      | none =>
          ⟨.ok bundlePath, some bundlePath, probed0,
            [(bundlePath, LANGUAGE_SERVER_BUNDLE)]⟩

/-- Embedding variant of `language_server_script_path` (`src/lib.rs`
lines 69-109): return a cached path that still exists, otherwise write the
embedded bundle afresh. -/
def language_server_script_path_embed (env : Env) (fs : FS)
    (cache : Option String) : RunOut :=
  match cache with
  | some p =>
      if fs.metadataOk p then ⟨.ok p, some p, [p], []⟩
      else embedFresh env fs (some p) [p]
  | none => embedFresh env fs none []

/-- Candidate locations of the search variant (`src/lib-debug.rs`
lines 135-148), in push order: `bundle.js` in the current directory, the
legacy `language-server/bundle.js` location, and `bundle.js` next to the
executable when the executable's directory is available. -/
def candidatePaths (dir : String) (exeParent : Option String) : List String :=
  [pathJoin dir "bundle.js",
    pathJoin (pathJoin dir "language-server") "bundle.js"] ++
    (match exeParent with
     | some d => [pathJoin d "bundle.js"]
     | none => [])

/-- Rust's `Vec::join("\n")` on a list of lines. -/
def joinLines : List String → String
  | [] => ""
  | [a] => a
  | a :: b :: rest => a ++ "\n" ++ joinLines (b :: rest)

/-- Error message of the search variant when no candidate exists
(`src/lib-debug.rs` lines 177-187); `{:?}` on a `PathBuf` prints it
quoted. -/
def notFoundMsg (paths : List String) (dir : String) : String :=
  "Language server bundle not found. Searched:\n" ++
    joinLines (paths.map (fun p => "  - " ++ p)) ++
    "\nCurrent dir: " ++ "\x22" ++ dir ++ "\x22"

/-- Candidate loop of the search variant (`src/lib-debug.rs`
lines 153-187): return, cache and record the first existing path;
exhaustion produces the not-found error listing every candidate of
`allPaths`. -/
def searchLoop (fs : FS) (cache : Option String) (dir : String)
    (allPaths : List String) : List String → List String → RunOut
  | probed0, [] => ⟨.error (notFoundMsg allPaths dir), cache, probed0, []⟩
  | probed0, p :: rest =>
      if fs.metadataOk p then ⟨.ok p, some p, probed0 ++ [p], []⟩
      else searchLoop fs cache dir allPaths (probed0 ++ [p]) rest

/-- Fallthrough of the search variant of `language_server_script_path`
(`src/lib-debug.rs` lines 126-187), reached when no usable cached path
exists: obtain the current directory, build the candidate list and scan
it. -/
def searchFresh (env : Env) (fs : FS) (cache : Option String)
    (probed0 : List String) : RunOut :=
  match env.currentDir with
  | .error e =>
      ⟨.error ("Failed to get current directory: " ++ e), cache, probed0, []⟩
  | .ok dir =>
      let paths := candidatePaths dir env.exeParent
      searchLoop fs cache dir paths probed0 paths

/-- Search variant of `language_server_script_path` (`src/lib-debug.rs`
lines 113-188): return a cached path that still exists, otherwise search
the candidate list. -/
def language_server_script_path_search (env : Env) (fs : FS)
    (cache : Option String) : RunOut :=
  match cache with
  | some p =>
      if fs.metadataOk p then ⟨.ok p, some p, [p], []⟩
      else searchFresh env fs (some p) [p]
  | none => searchFresh env fs none []

/-- Launch descriptor mirroring `zed::Command`. -/
structure Command where
  command : String
  args : List String
  env : List (String × String)
deriving Repr, DecidableEq

/-- Embedding variant of `language_server_command` (`src/lib.rs`
lines 33-48): resolve the script path, then build the node invocation.
`nodeBin` models `zed::node_binary_path()`. The second component is the
`cached_binary_path` field after the call. -/
def language_server_command_embed (nodeBin : Except String String)
    (env : Env) (fs : FS) (cache : Option String) :
    Except String Command × Option String :=
  let r := language_server_script_path_embed env fs cache
  match r.res with
  | .error e => (.error e, r.cache)
  | .ok p =>
      match nodeBin with
      | .error e => (.error e, r.cache)
      | .ok node => (.ok ⟨node, [p, "--stdio"], []⟩, r.cache)

/-- Search variant of `language_server_command` (`src/lib-debug.rs`
lines 50-72): identical construction over the search-variant path
resolution. -/
def language_server_command_search (nodeBin : Except String String)
    (env : Env) (fs : FS) (cache : Option String) :
    Except String Command × Option String :=
  let r := language_server_script_path_search env fs cache
  match r.res with
  | .error e => (.error e, r.cache)
  | .ok p =>
      match nodeBin with
      | .error e => (.error e, r.cache)
      | .ok node => (.ok ⟨node, [p, "--stdio"], []⟩, r.cache)

/-- JSON values, as much of `serde_json::Value` as the sources build. -/
inductive Json where
  | null
  | bool (b : Bool)
  | str (s : String)
  | obj (fields : List (String × Json))

/-- Host-side LSP settings record; of `zed::settings::LspSettings` only the
`settings` field is used by the sources. -/
structure LspSettings where
  settings : Option Json

/-- Rust chain `LspSettings::for_worktree(..).ok().and_then(|l| l.settings.clone())`
(`src/lib.rs` lines 56-58): the settings blob when the lookup succeeded and
carried one. -/
def lspLookup (lsp : Except String LspSettings) : Option Json :=
  match lsp with
  | .ok s => s.settings
  | .error _ => none

/-- Search variant of `language_server_initialization_options`
(`src/lib-debug.rs` lines 87-97): the fixed three-flag capability map. -/
def language_server_initialization_options_search :
    Except String (Option Json) :=
  .ok (some (Json.obj
    [("typeChecking", Json.bool true),
     ("definitions", Json.bool true),
     ("hover", Json.bool true)]))

/-- Embedding variant of `language_server_initialization_options`
(`src/lib.rs` lines 50-65): forward the host's settings blob (defaulted to
`Value::Null` via `unwrap_or_default`) under a single `settings` key. -/
def language_server_initialization_options_embed
    (lsp : Except String LspSettings) : Except String (Option Json) :=
  let settings := (lspLookup lsp).getD Json.null
  .ok (some (Json.obj [("settings", settings)]))

/-- The cached path is absent, or the file it names no longer exists. -/
def cacheUnusable (fs : FS) (cache : Option String) : Prop :=
  cache = none ∨ ∃ p, cache = some p ∧ fs.metadataOk p = false

/-- Substring containment on strings, stated on the character lists. -/
def strContains (hay needle : String) : Prop :=
  needle.data <:+: hay.data

/-- Sample state: only the file `/cached/ls.js` exists; writes succeed. -/
def fsCachedOnly : FS := ⟨fun s => s == "/cached/ls.js", fun _ => none⟩

/-- Sample state: no file exists; writes succeed. -/
def fsEmpty : FS := ⟨fun _ => false, fun _ => none⟩

/-- Sample state: only the file `/exe/bundle.js` exists; writes succeed. -/
def fsExeOnly : FS := ⟨fun s => s == "/exe/bundle.js", fun _ => none⟩

/-- Sample environment: current directory `/work`, executable in `/exe`. -/
def envOk : Env := ⟨.ok "/work", some "/exe"⟩

/-- Sample environment where `std::env::current_dir()` fails. -/
def envNoDir : Env := ⟨.error "io error", some "/exe"⟩

theorem strContains_suffix (x n : String) : strContains (x ++ n) n := by
  simpa [strContains, String.data_append] using
    (List.suffix_append x.data n.data).isInfix

theorem strContains_left (x h n : String) (hc : strContains h n) :
    strContains (x ++ h) n := by
  simpa [strContains, String.data_append] using
    hc.trans (List.suffix_append x.data h.data).isInfix

theorem strContains_right (h x n : String) (hc : strContains h n) :
    strContains (h ++ x) n := by
  simpa [strContains, String.data_append] using
    hc.trans (List.prefix_append h.data x.data).isInfix

theorem mem_joinLines (p : String) :
    ∀ l : List String, p ∈ l →
      strContains (joinLines (l.map (fun q => "  - " ++ q))) p := by
  intro l
  induction l with
  | nil => intro h; cases h
  | cons a rest ih =>
    intro hmem
    cases rest with
    | nil =>
      rcases List.mem_singleton.mp hmem with rfl
      simpa [joinLines] using strContains_suffix "  - " p
    | cons b rest2 =>
      rcases List.mem_cons.mp hmem with rfl | hmem2
      · simpa [joinLines] using
          strContains_right _ (joinLines (List.map (fun q => "  - " ++ q) (b :: rest2)))
            p (strContains_right _ "\n" p (strContains_suffix "  - " p))
      · simpa [joinLines] using
          strContains_left (("  - " ++ a) ++ "\n") _ p (ih hmem2)

theorem notFoundMsg_contains (paths : List String) (dir p : String)
    (hmem : p ∈ paths) : strContains (notFoundMsg paths dir) p := by
  unfold notFoundMsg
  exact strContains_right _ _ _ (strContains_right _ _ _ (strContains_right _ _ _
    (strContains_right _ _ _ (strContains_left _ _ _ (mem_joinLines p paths hmem)))))

theorem searchLoop_none (fs : FS) (cache : Option String) (dir : String)
    (allPaths : List String) :
    ∀ l probed0, (∀ c ∈ l, fs.metadataOk c = false) →
      searchLoop fs cache dir allPaths probed0 l =
        ⟨.error (notFoundMsg allPaths dir), cache, probed0 ++ l, []⟩ := by
  intro l
  induction l with
  | nil => intro probed0 _; simp [searchLoop]
  | cons p rest ih =>
    intro probed0 h
    have hp := h p (List.mem_cons_self p rest)
    have hrest : ∀ c ∈ rest, fs.metadataOk c = false :=
      fun c hc => h c (List.mem_cons_of_mem p hc)
    simp [searchLoop, hp, ih (probed0 ++ [p]) hrest]

theorem searchLoop_find (fs : FS) (cache : Option String) (dir : String)
    (allPaths : List String) :
    ∀ l probed0 c, List.find? (fun q => fs.metadataOk q) l = some c →
      (searchLoop fs cache dir allPaths probed0 l).res = .ok c := by
  intro l
  induction l with
  | nil => intro probed0 c h; simp at h
  | cons p rest ih =>
    intro probed0 c h
    by_cases hp : fs.metadataOk p
    · rw [List.find?_cons_of_pos rest hp] at h
      cases h
      simp [searchLoop, hp]
    · rw [List.find?_cons_of_neg rest (by simpa using hp)] at h
      simp [searchLoop, hp, ih (probed0 ++ [p]) c h]

theorem searchLoop_ok (fs : FS) (cache : Option String) (dir : String)
    (allPaths : List String) :
    ∀ l probed0 c, (searchLoop fs cache dir allPaths probed0 l).res = .ok c →
      fs.metadataOk c = true ∧
        (searchLoop fs cache dir allPaths probed0 l).cache = some c := by
  intro l
  induction l with
  | nil => intro probed0 c h; simp [searchLoop] at h
  | cons p rest ih =>
    intro probed0 c h
    by_cases hp : fs.metadataOk p
    · simp [searchLoop, hp] at h ⊢
      exact ⟨h ▸ hp, h⟩
    · simp [searchLoop, hp] at h ⊢
      exact ih (probed0 ++ [p]) c h

theorem searchLoop_err (fs : FS) (cache : Option String) (dir : String)
    (allPaths : List String) :
    ∀ l probed0 e, (searchLoop fs cache dir allPaths probed0 l).res = .error e →
      (searchLoop fs cache dir allPaths probed0 l).cache = cache ∧
        (searchLoop fs cache dir allPaths probed0 l).probed = probed0 ++ l ∧
        (searchLoop fs cache dir allPaths probed0 l).wrote = [] := by
  intro l
  induction l with
  | nil => intro probed0 e _; simp [searchLoop]
  | cons p rest ih =>
    intro probed0 e h
    by_cases hp : fs.metadataOk p
    · simp [searchLoop, hp] at h
    · simp [searchLoop, hp] at h ⊢
      simpa [List.append_assoc] using ih (probed0 ++ [p]) e h

/-- C1, counterexample: with a cached path that still exists on disk
(`/cached/ls.js` under `fsCachedOnly`), the embedding variant performs no
write at all and returns the cached path, which is not the
`arturo-lsp-bundle.js` target — so it does not write the payload
"regardless of whether a cached path is set and still exists". -/
theorem c1_counterexample :
    (language_server_script_path_embed envOk fsCachedOnly
        (some "/cached/ls.js")).wrote = [] ∧
    (language_server_script_path_embed envOk fsCachedOnly
        (some "/cached/ls.js")).res = .ok "/cached/ls.js" ∧
    "/cached/ls.js" ≠ pathJoin "/work" "arturo-lsp-bundle.js" :=
  ⟨rfl, rfl, by decide⟩

/-- C1, amended: in the embedding variant, whenever the cache is unset or
the cached file no longer exists, `language_server_script_path` writes the
fixed embedded payload (`LANGUAGE_SERVER_BUNDLE`) to
`arturo-lsp-bundle.js` in the current directory, caches that path and
returns it; a cached path that still exists is returned without any
write. -/
theorem c1_amended_embed_writes_when_cache_unusable (env : Env) (fs : FS)
    (cache : Option String) (dir : String)
    (hcache : cacheUnusable fs cache)
    (hdir : env.currentDir = .ok dir)
    (hwrite : fs.writeErr (pathJoin dir "arturo-lsp-bundle.js") = none) :
    (language_server_script_path_embed env fs cache).res =
      .ok (pathJoin dir "arturo-lsp-bundle.js") ∧
    (language_server_script_path_embed env fs cache).wrote =
      [(pathJoin dir "arturo-lsp-bundle.js", LANGUAGE_SERVER_BUNDLE)] ∧
    (language_server_script_path_embed env fs cache).cache =
      some (pathJoin dir "arturo-lsp-bundle.js") := by
  rcases hcache with rfl | ⟨p, rfl, hp⟩
  · simp [language_server_script_path_embed, embedFresh, hdir, hwrite]
  · simp [language_server_script_path_embed, embedFresh, hdir, hp, hwrite]

/-- C1, witness for the amended theorem at the empty filesystem. -/
theorem c1_witness :
    cacheUnusable fsEmpty none ∧ envOk.currentDir = .ok "/work" ∧
    fsEmpty.writeErr (pathJoin "/work" "arturo-lsp-bundle.js") = none ∧
    ((language_server_script_path_embed envOk fsEmpty none).res =
        .ok (pathJoin "/work" "arturo-lsp-bundle.js") ∧
      (language_server_script_path_embed envOk fsEmpty none).wrote =
        [(pathJoin "/work" "arturo-lsp-bundle.js", LANGUAGE_SERVER_BUNDLE)] ∧
      (language_server_script_path_embed envOk fsEmpty none).cache =
        some (pathJoin "/work" "arturo-lsp-bundle.js")) :=
  ⟨Or.inl rfl, rfl, rfl,
    c1_amended_embed_writes_when_cache_unusable envOk fsEmpty none "/work"
      (Or.inl rfl) rfl rfl⟩

/-- C2: in both variants, when `cached_binary_path` is `some p` and the
file at `p` exists, `language_server_script_path` returns `Ok p`; the only
existence check performed is on `p` itself (the candidate list is never
consulted) and nothing is written. -/
theorem c2_cached_path_short_circuit (env : Env) (fs : FS) (p : String)
    (h : fs.metadataOk p = true) :
    language_server_script_path_embed env fs (some p) =
      ⟨.ok p, some p, [p], []⟩ ∧
    language_server_script_path_search env fs (some p) =
      ⟨.ok p, some p, [p], []⟩ := by
  constructor
  · simp [language_server_script_path_embed, h]
  · simp [language_server_script_path_search, h]

/-- C2, witness at the filesystem holding only the cached file. -/
theorem c2_witness :
    fsCachedOnly.metadataOk "/cached/ls.js" = true ∧
    (language_server_script_path_embed envOk fsCachedOnly
        (some "/cached/ls.js") =
      ⟨.ok "/cached/ls.js", some "/cached/ls.js", ["/cached/ls.js"], []⟩ ∧
    language_server_script_path_search envOk fsCachedOnly
        (some "/cached/ls.js") =
      ⟨.ok "/cached/ls.js", some "/cached/ls.js", ["/cached/ls.js"], []⟩) :=
  ⟨rfl, c2_cached_path_short_circuit envOk fsCachedOnly "/cached/ls.js" rfl⟩

/-- C3: in the search variant, when the cache is unusable and no candidate
exists on disk, `language_server_script_path` returns an error whose
message contains every candidate path that was searched. -/
theorem c3_error_lists_every_candidate (env : Env) (fs : FS)
    (cache : Option String) (dir : String)
    (hcache : cacheUnusable fs cache)
    (hdir : env.currentDir = .ok dir)
    (hnone : ∀ c ∈ candidatePaths dir env.exeParent, fs.metadataOk c = false) :
    ∃ msg, (language_server_script_path_search env fs cache).res = .error msg ∧
      ∀ c ∈ candidatePaths dir env.exeParent, strContains msg c := by
  refine ⟨notFoundMsg (candidatePaths dir env.exeParent) dir, ?_,
    fun c hc => notFoundMsg_contains _ dir c hc⟩
  rcases hcache with rfl | ⟨p, rfl, hp⟩
  · simp [language_server_script_path_search, searchFresh, hdir,
      searchLoop_none fs none dir _ _ [] hnone]
  · simp [language_server_script_path_search, searchFresh, hdir, hp,
      searchLoop_none fs (some p) dir _ _ [p] hnone]

/-- C3, witness at the empty filesystem with no cached path. -/
theorem c3_witness :
    cacheUnusable fsEmpty none ∧ envOk.currentDir = .ok "/work" ∧
    (∀ c ∈ candidatePaths "/work" envOk.exeParent,
      fsEmpty.metadataOk c = false) ∧
    (∃ msg, (language_server_script_path_search envOk fsEmpty none).res =
        .error msg ∧
      ∀ c ∈ candidatePaths "/work" envOk.exeParent, strContains msg c) :=
  ⟨Or.inl rfl, rfl, fun _ _ => rfl,
    c3_error_lists_every_candidate envOk fsEmpty none "/work" (Or.inl rfl)
      rfl (fun _ _ => rfl)⟩

/-- C4: in both variants, every successful `language_server_command` call
yields a descriptor whose executable is the host-provided node binary,
whose arguments are exactly the resolved script path followed by the
literal `--stdio`, and whose environment mapping is empty. -/
theorem c4_command_shape (nodeBin : Except String String) (env : Env)
    (fs : FS) (cache : Option String) :
    (∀ cmd, (language_server_command_embed nodeBin env fs cache).1 = .ok cmd →
      ∃ node p, nodeBin = .ok node ∧
        (language_server_script_path_embed env fs cache).res = .ok p ∧
        cmd = ⟨node, [p, "--stdio"], []⟩) ∧
    (∀ cmd, (language_server_command_search nodeBin env fs cache).1 = .ok cmd →
      ∃ node p, nodeBin = .ok node ∧
        (language_server_script_path_search env fs cache).res = .ok p ∧
        cmd = ⟨node, [p, "--stdio"], []⟩) := by
  constructor
  · intro cmd hcmd
    unfold language_server_command_embed at hcmd
    cases hres : (language_server_script_path_embed env fs cache).res with
    | error e => simp [hres] at hcmd
    | ok p =>
      cases nodeBin with
      | error e => simp [hres] at hcmd
      | ok node =>
        simp [hres] at hcmd
        exact ⟨node, p, rfl, rfl, hcmd.symm⟩
  · intro cmd hcmd
    unfold language_server_command_search at hcmd
    cases hres : (language_server_script_path_search env fs cache).res with
    | error e => simp [hres] at hcmd
    | ok p =>
      cases nodeBin with
      | error e => simp [hres] at hcmd
      | ok node =>
        simp [hres] at hcmd
        exact ⟨node, p, rfl, rfl, hcmd.symm⟩

/-- C4, witness at a cached, existing script path. -/
theorem c4_witness :
    (language_server_command_embed (.ok "/usr/bin/node") envOk fsCachedOnly
        (some "/cached/ls.js")).1 =
      .ok ⟨"/usr/bin/node", ["/cached/ls.js", "--stdio"], []⟩ ∧
    (∃ node p, (Except.ok "/usr/bin/node" : Except String String) = .ok node ∧
      (language_server_script_path_embed envOk fsCachedOnly
          (some "/cached/ls.js")).res = .ok p ∧
      (⟨"/usr/bin/node", ["/cached/ls.js", "--stdio"], []⟩ : Command) =
        ⟨node, [p, "--stdio"], []⟩) :=
  ⟨rfl,
    (c4_command_shape (.ok "/usr/bin/node") envOk fsCachedOnly
      (some "/cached/ls.js")).1 _ rfl⟩

/-- C5: in the search variant with an unusable cache, the candidate list
is exactly current-dir/bundle.js, then current-dir/language-server/bundle.js,
then exe-dir/bundle.js, and the call returns the first candidate that
exists on disk (the head of `List.find?` over that list). -/
theorem c5_search_order_first_existing (fs : FS) (cache : Option String)
    (dir e : String) (hcache : cacheUnusable fs cache) :
    candidatePaths dir (some e) =
      [pathJoin dir "bundle.js",
        pathJoin (pathJoin dir "language-server") "bundle.js",
        pathJoin e "bundle.js"] ∧
    ∀ c, List.find? (fun q => fs.metadataOk q) (candidatePaths dir (some e)) =
        some c →
      (language_server_script_path_search ⟨.ok dir, some e⟩ fs cache).res =
        .ok c := by
  refine ⟨rfl, fun c hfind => ?_⟩
  rcases hcache with rfl | ⟨p, rfl, hp⟩
  · simpa [language_server_script_path_search, searchFresh] using
      searchLoop_find fs none dir _ _ [] c hfind
  · simpa [language_server_script_path_search, searchFresh, hp] using
      searchLoop_find fs (some p) dir _ _ [p] c hfind

/-- C5, witness: exactly one candidate (the executable-directory one)
exists, and it is returned. -/
theorem c5_witness :
    cacheUnusable fsExeOnly none ∧
    List.find? (fun q => fsExeOnly.metadataOk q)
        (candidatePaths "/work" (some "/exe")) = some "/exe/bundle.js" ∧
    (language_server_script_path_search ⟨.ok "/work", some "/exe"⟩ fsExeOnly
        none).res = .ok "/exe/bundle.js" :=
  ⟨Or.inl rfl, by decide,
    (c5_search_order_first_existing fsExeOnly none "/work" "/exe"
        (Or.inl rfl)).2 "/exe/bundle.js" (by decide)⟩

/-- C6: `language_server_initialization_options` returns, in the search
variant, exactly the fixed three-boolean capability map (typeChecking,
definitions, hover, each true); in the embedding variant, a single
`settings` key whose value is the host's settings blob unchanged whenever
the host lookup yielded one. -/
theorem c6_initialization_options_shape :
    language_server_initialization_options_search =
      .ok (some (Json.obj
        [("typeChecking", Json.bool true),
          ("definitions", Json.bool true),
          ("hover", Json.bool true)])) ∧
    ∀ lsp : Except String LspSettings, ∃ s,
      language_server_initialization_options_embed lsp =
        .ok (some (Json.obj [("settings", s)])) ∧
      ∀ v, lspLookup lsp = some v → s = v := by
  refine ⟨rfl, fun lsp => ⟨(lspLookup lsp).getD Json.null, rfl, ?_⟩⟩
  intro v hv
  simp [hv]

/-- C6, witness at a host configuration carrying a settings blob. -/
theorem c6_witness :
    ∃ s, language_server_initialization_options_embed
        (.ok ⟨some (Json.bool true)⟩) =
      .ok (some (Json.obj [("settings", s)])) ∧
      ∀ v, lspLookup (.ok ⟨some (Json.bool true)⟩) = some v → s = v :=
  c6_initialization_options_shape.2 (.ok ⟨some (Json.bool true)⟩)

/-- C7, counterexample: under `fsEmpty` every write succeeds, yet with a
failing current-directory lookup (`envNoDir`) the embedding variant
returns an error — so it does not hold that the function fails only when
the write fails. -/
theorem c7_counterexample :
    fsEmpty.writeErr (pathJoin "/work" "arturo-lsp-bundle.js") = none ∧
    (language_server_script_path_embed envNoDir fsEmpty none).res =
      .error "Failed to get current directory: io error" :=
  ⟨rfl, rfl⟩

/-- C7, amended: the embedding variant fails only when the
current-directory lookup fails or the filesystem write of the payload
fails; whenever the current directory resolves and the write to its
`arturo-lsp-bundle.js` succeeds, the call returns Ok for every cache
state. -/
theorem c7_amended_embed_error_sources (env : Env) (fs : FS)
    (cache : Option String) :
    (∀ e, (language_server_script_path_embed env fs cache).res = .error e →
      (∃ e2, env.currentDir = .error e2) ∨
      (∃ dir e2, env.currentDir = .ok dir ∧
        fs.writeErr (pathJoin dir "arturo-lsp-bundle.js") = some e2)) ∧
    (∀ dir, env.currentDir = .ok dir →
      fs.writeErr (pathJoin dir "arturo-lsp-bundle.js") = none →
      ∃ p, (language_server_script_path_embed env fs cache).res = .ok p) := by
  constructor
  · intro e he
    unfold language_server_script_path_embed embedFresh at he
    cases hdir : env.currentDir with
    | error e2 => exact Or.inl ⟨e2, rfl⟩
    | ok dir =>
      refine Or.inr ⟨dir, ?_⟩
      cases hw : fs.writeErr (pathJoin dir "arturo-lsp-bundle.js") with
      | some e2 => exact ⟨e2, rfl, rfl⟩
      | none =>
        exfalso
        cases cache with
        | none => simp [hdir, hw] at he
        | some p =>
          by_cases hp : fs.metadataOk p
          · simp [hp] at he
          · simp [hp, hdir, hw] at he
  · intro dir hdir hw
    cases cache with
    | none =>
      exact ⟨pathJoin dir "arturo-lsp-bundle.js",
        by simp [language_server_script_path_embed, embedFresh, hdir, hw]⟩
    | some p =>
      by_cases hp : fs.metadataOk p
      · exact ⟨p, by simp [language_server_script_path_embed, hp]⟩
      · exact ⟨pathJoin dir "arturo-lsp-bundle.js",
          by simp [language_server_script_path_embed, embedFresh, hp, hdir, hw]⟩

/-- C7, witness for the amended theorem: with a resolvable current
directory and a succeeding write, the call returns Ok. -/
theorem c7_witness :
    envOk.currentDir = .ok "/work" ∧
    fsEmpty.writeErr (pathJoin "/work" "arturo-lsp-bundle.js") = none ∧
    (∃ p, (language_server_script_path_embed envOk fsEmpty none).res =
      .ok p) :=
  ⟨rfl, rfl,
    (c7_amended_embed_error_sources envOk fsEmpty none).2 "/work" rfl rfl⟩

/-- C8: in both variants, a failing `language_server_script_path` call
returns the error directly with no partial success: the cache field is
left exactly as it was and nothing is written; in the search variant the
existence checks performed are the cache check followed by each candidate
exactly once, in order — no candidate is retried. -/
theorem c8_failure_no_partial_effects (env : Env) (fs : FS)
    (cache : Option String) (e : String) :
    ((language_server_script_path_embed env fs cache).res = .error e →
      (language_server_script_path_embed env fs cache).cache = cache ∧
      (language_server_script_path_embed env fs cache).wrote = []) ∧
    ((language_server_script_path_search env fs cache).res = .error e →
      (language_server_script_path_search env fs cache).cache = cache ∧
      (language_server_script_path_search env fs cache).wrote = [] ∧
      ∀ dir, env.currentDir = .ok dir →
        (language_server_script_path_search env fs cache).probed =
          cache.toList ++ candidatePaths dir env.exeParent) := by
  constructor
  · intro he
    unfold language_server_script_path_embed embedFresh at he ⊢
    cases cache with
    | none =>
      cases hdir : env.currentDir with
      | error e2 => simp [hdir]
      | ok dir =>
        cases hw : fs.writeErr (pathJoin dir "arturo-lsp-bundle.js") with
        | some e2 => simp [hdir, hw]
        | none => simp [hdir, hw] at he
    | some p =>
      by_cases hp : fs.metadataOk p
      · simp [hp] at he
      · cases hdir : env.currentDir with
        | error e2 => simp [hp, hdir]
        | ok dir =>
          cases hw : fs.writeErr (pathJoin dir "arturo-lsp-bundle.js") with
          | some e2 => simp [hp, hdir, hw]
          | none => simp [hp, hdir, hw] at he
  · intro he
    unfold language_server_script_path_search searchFresh at he ⊢
    cases cache with
    | none =>
      cases hdir : env.currentDir with
      | error e2 => simp [hdir]
      | ok dir =>
        simp [hdir] at he ⊢
        obtain ⟨h1, h2, h3⟩ := searchLoop_err fs none dir _ _ [] e he
        exact ⟨h1, h3, by simpa using h2⟩
    | some p =>
      by_cases hp : fs.metadataOk p
      · simp [hp] at he
      · cases hdir : env.currentDir with
        | error e2 => simp [hp, hdir]
        | ok dir =>
          simp [hp, hdir] at he ⊢
          obtain ⟨h1, h2, h3⟩ := searchLoop_err fs (some p) dir _ _ [p] e he
          exact ⟨h1, h3, by simpa using h2⟩

/-- C8, witness: at the empty filesystem the search variant fails, leaves
the cache at `none`, writes nothing, and probes each candidate once. -/
theorem c8_witness :
    (language_server_script_path_search envOk fsEmpty none).res =
      .error (notFoundMsg (candidatePaths "/work" (some "/exe")) "/work") ∧
    ((language_server_script_path_search envOk fsEmpty none).cache = none ∧
      (language_server_script_path_search envOk fsEmpty none).wrote = [] ∧
      ∀ dir, envOk.currentDir = .ok dir →
        (language_server_script_path_search envOk fsEmpty none).probed =
          (none : Option String).toList ++ candidatePaths dir envOk.exeParent) :=
  ⟨rfl,
    (c8_failure_no_partial_effects envOk fsEmpty none
        (notFoundMsg (candidatePaths "/work" (some "/exe")) "/work")).2 rfl⟩

/-- C9: in both variants, a successful `language_server_script_path` call
sets `cached_binary_path` to exactly the returned path, and that path was
either just verified to exist (`fs.metadataOk`) or just written (it is in
the write log with the embedded payload). -/
theorem c9_success_caches_returned_path (env : Env) (fs : FS)
    (cache : Option String) (p : String) :
    ((language_server_script_path_embed env fs cache).res = .ok p →
      (language_server_script_path_embed env fs cache).cache = some p ∧
      (fs.metadataOk p = true ∨
        (p, LANGUAGE_SERVER_BUNDLE) ∈
          (language_server_script_path_embed env fs cache).wrote)) ∧
    ((language_server_script_path_search env fs cache).res = .ok p →
      (language_server_script_path_search env fs cache).cache = some p ∧
      fs.metadataOk p = true) := by
  constructor
  · intro hok
    unfold language_server_script_path_embed embedFresh at hok ⊢
    cases cache with
    | none =>
      cases hdir : env.currentDir with
      | error e2 => simp [hdir] at hok
      | ok dir =>
        cases hw : fs.writeErr (pathJoin dir "arturo-lsp-bundle.js") with
        | some e2 => simp [hdir, hw] at hok
        | none =>
          simp [hdir, hw] at hok ⊢
          exact ⟨hok, Or.inr hok.symm⟩
    | some q =>
      by_cases hq : fs.metadataOk q
      · simp [hq] at hok ⊢
        cases hok
        exact ⟨rfl, hq⟩
      · cases hdir : env.currentDir with
        | error e2 => simp [hq, hdir] at hok
        | ok dir =>
          cases hw : fs.writeErr (pathJoin dir "arturo-lsp-bundle.js") with
          | some e2 => simp [hq, hdir, hw] at hok
          | none =>
            simp [hq, hdir, hw] at hok ⊢
            exact ⟨hok, Or.inr hok.symm⟩
  · intro hok
    unfold language_server_script_path_search searchFresh at hok ⊢
    cases cache with
    | none =>
      cases hdir : env.currentDir with
      | error e2 => simp [hdir] at hok
      | ok dir =>
        simp [hdir] at hok ⊢
        obtain ⟨h1, h2⟩ := searchLoop_ok fs none dir _ _ [] p hok
        exact ⟨h2, h1⟩
    | some q =>
      by_cases hq : fs.metadataOk q
      · simp [hq] at hok ⊢
        cases hok
        exact ⟨rfl, hq⟩
      · cases hdir : env.currentDir with
        | error e2 => simp [hq, hdir] at hok
        | ok dir =>
          simp [hq, hdir] at hok ⊢
          obtain ⟨h1, h2⟩ := searchLoop_ok fs (some q) dir _ _ [q] p hok
          exact ⟨h2, h1⟩

/-- C9, witness: a fresh embedding-variant resolution caches the freshly
written path it returns. -/
theorem c9_witness :
    (language_server_script_path_embed envOk fsEmpty none).res =
      .ok (pathJoin "/work" "arturo-lsp-bundle.js") ∧
    ((language_server_script_path_embed envOk fsEmpty none).cache =
        some (pathJoin "/work" "arturo-lsp-bundle.js") ∧
      (fsEmpty.metadataOk (pathJoin "/work" "arturo-lsp-bundle.js") = true ∨
        (pathJoin "/work" "arturo-lsp-bundle.js", LANGUAGE_SERVER_BUNDLE) ∈
          (language_server_script_path_embed envOk fsEmpty none).wrote)) :=
  ⟨rfl,
    (c9_success_caches_returned_path envOk fsEmpty none
        (pathJoin "/work" "arturo-lsp-bundle.js")).1 rfl⟩

/-- C10: the embedding variant of `language_server_initialization_options`
never returns an error, and when the host lookup fails or carries no
settings it forwards the default `Null` value under the `settings` key. -/
theorem c10_embed_init_options_total (lsp : Except String LspSettings) :
    (∃ j, language_server_initialization_options_embed lsp = .ok j) ∧
    (lspLookup lsp = none →
      language_server_initialization_options_embed lsp =
        .ok (some (Json.obj [("settings", Json.null)]))) := by
  refine ⟨⟨_, rfl⟩, fun h => ?_⟩
  simp [language_server_initialization_options_embed, h]

/-- C10, witness at a failed host settings lookup. -/
theorem c10_witness :
    lspLookup (.error "no settings") = none ∧
    ((∃ j, language_server_initialization_options_embed
        (.error "no settings") = .ok j) ∧
      (lspLookup (.error "no settings") = none →
        language_server_initialization_options_embed (.error "no settings") =
          .ok (some (Json.obj [("settings", Json.null)])))) :=
  ⟨rfl, c10_embed_init_options_total (.error "no settings")⟩
